import Mathlib

/-!
Shallow embedding of `crates/tinywasm/src/interpreter/stack/value_stack.rs`
(the segmented operand stack of the tinywasm interpreter).

Modelling conventions:
* Each of the four `Vec` category sequences becomes a Lean `List`, index 0 at
  the bottom of the stack, pushes appended at the end (exactly like `Vec`).
* Rust's `&mut self` methods returning `Result<T>` become state-passing
  functions `ValueStack → Except Error T × ValueStack`: on an error the
  function returns the stack as mutated so far, which mirrors the behaviour
  of the `?` operator on a `&mut` receiver.
* The value carriers `Value32`/`Value64`/`Value128` are opaque bit patterns;
  no claim involves machine arithmetic on them, so they are modelled as `Nat`.
  `ValueRef` is `Option Nat` (the `None` case is the null reference).
* `truncate_keep` calls `Vec::drain` with a computed range; a range whose
  start exceeds its end, or whose end exceeds the vector length (this is what
  the `u32` subtraction `len - end_keep` produces when `end_keep > len`,
  whether the subtraction panics in debug mode or wraps in release mode),
  makes `drain` panic.  Abnormal termination is modelled by `Option`:
  `none` means the operation did not complete normally.
-/

/-- A 32-bit slot value (`Value32` in the source), kept as its bit pattern. -/
abbrev Value32 := Nat

/-- A 64-bit slot value (`Value64` in the source). -/
abbrev Value64 := Nat

/-- A 128-bit slot value (`Value128` in the source). -/
abbrev Value128 := Nat

/-- A reference slot value (`ValueRef` in the source): `none` is the null
reference, `some a` a function/extern address. -/
abbrev ValueRef := Option Nat

/-- Errors the value stack can produce.  `StackUnderflow` is the stack's own
error; `Trap n` stands for an arbitrary error produced by a caller-supplied
function handed to `calculate`/`replace_top` (the stack only propagates it). -/
inductive Error where
  | StackUnderflow : Error
  | Trap : Nat → Error
deriving DecidableEq, Repr

/-- `ValueStack` from the source: four independently growing sequences, one
per physical category. -/
structure ValueStack where
  stack_32 : List Value32
  stack_64 : List Value64
  stack_128 : List Value128
  stack_ref : List ValueRef
deriving DecidableEq, Repr

/-- Modelled from the spec: the four physical slot categories (the closed
capability set over which the `InternalValue` trait of
`interpreter/values.rs` — not part of the sources under verification — is
implemented; per spec §3 every semantic value type maps to exactly one of
these four categories). -/
inductive Category where
  | s32 : Category
  | s64 : Category
  | s128 : Category
  | sref : Category
deriving DecidableEq, Repr

/-- The value carrier of each category. -/
@[reducible] def Category.Carrier : Category → Type
  | .s32 => Value32
  | .s64 => Value64
  | .s128 => Value128
  | .sref => ValueRef

instance (c : Category) : DecidableEq c.Carrier := by
  cases c <;> simp [Category.Carrier] <;> infer_instance

/-- Length of one category's sequence. -/
def ValueStack.lenC (c : Category) (s : ValueStack) : Nat :=
  match c with
  | .s32 => s.stack_32.length
  | .s64 => s.stack_64.length
  | .s128 => s.stack_128.length
  | .sref => s.stack_ref.length

/-- Modelled from the spec: `T::stack_push` of the capability abstraction —
pushing appends the value at the end of the matching category sequence
(`Vec::push`). -/
def ValueStack.stack_push (c : Category) (v : c.Carrier) (s : ValueStack) : ValueStack :=
  match c, v with
  | .s32, v => { s with stack_32 := s.stack_32 ++ [v] }
  | .s64, v => { s with stack_64 := s.stack_64 ++ [v] }
  | .s128, v => { s with stack_128 := s.stack_128 ++ [v] }
  | .sref, v => { s with stack_ref := s.stack_ref ++ [v] }

/-- Modelled from the spec: `T::stack_pop` of the capability abstraction —
`Vec::pop` on the matching category sequence, `StackUnderflow` when it is
empty (in which case the stack is unchanged). -/
def ValueStack.stack_pop (c : Category) (s : ValueStack) :
    Except Error c.Carrier × ValueStack :=
  match c with
  | .s32 =>
    match s.stack_32.getLast? with
    | some v => (.ok v, { s with stack_32 := s.stack_32.dropLast })
    | none => (.error .StackUnderflow, s)
  | .s64 =>
    match s.stack_64.getLast? with
    | some v => (.ok v, { s with stack_64 := s.stack_64.dropLast })
    | none => (.error .StackUnderflow, s)
  | .s128 =>
    match s.stack_128.getLast? with
    | some v => (.ok v, { s with stack_128 := s.stack_128.dropLast })
    | none => (.error .StackUnderflow, s)
  | .sref =>
    match s.stack_ref.getLast? with
    | some v => (.ok v, { s with stack_ref := s.stack_ref.dropLast })
    | none => (.error .StackUnderflow, s)

/-- `ValueStack::select::<T>` (value_stack.rs:59-67): pops a 32-bit condition,
then `val2 : T`; when the condition is zero it drops `val1` and pushes `val2`
back, otherwise it leaves the stack as it is after the two pops. -/
def ValueStack.select (c : Category) (s : ValueStack) :
    Except Error Unit × ValueStack :=
  match s.stack_pop .s32 with
  | (.error e, s1) => (.error e, s1)
  | (.ok cond, s1) =>
    match s1.stack_pop c with
    | (.error e, s2) => (.error e, s2)
    | (.ok val2, s2) =>
      if cond = 0 then
        match s2.stack_pop c with
        | (.error e, s3) => (.error e, s3)
        | (.ok _, s3) => (.ok (), s3.stack_push c val2)
      else
        (.ok (), s2)

/-- `ValueStack::calculate::<T, U>` (value_stack.rs:70-75): pops `v2` then
`v1`, applies the caller-supplied function to `(v1, v2)`, pushes the result. -/
def ValueStack.calculate (c u : Category)
    (func : c.Carrier → c.Carrier → Except Error u.Carrier) (s : ValueStack) :
    Except Error Unit × ValueStack :=
  match s.stack_pop c with
  | (.error e, s1) => (.error e, s1)
  | (.ok v2, s1) =>
    match s1.stack_pop c with
    | (.error e, s2) => (.error e, s2)
    | (.ok v1, s2) =>
      match func v1 v2 with
      | .error e => (.error e, s2)
      | .ok r => (.ok (), s2.stack_push u r)

/-- `ValueStack::replace_top::<T, U>` (value_stack.rs:78-82): pops one `T`,
applies the caller-supplied function, pushes the result. -/
def ValueStack.replace_top (c u : Category)
    (func : c.Carrier → Except Error u.Carrier) (s : ValueStack) :
    Except Error Unit × ValueStack :=
  match s.stack_pop c with
  | (.error e, s1) => (.error e, s1)
  | (.ok v1, s1) =>
    match func v1 with
    | .error e => (.error e, s1)
    | .ok r => (.ok (), s1.stack_push u r)

/-- `ValType` from `tinywasm_types` (consumed vocabulary, spec §6): the seven
value-type witnesses. -/
inductive ValType where
  | I32 : ValType
  | I64 : ValType
  | F32 : ValType
  | F64 : ValType
  | V128 : ValType
  | RefFunc : ValType
  | RefExtern : ValType
deriving DecidableEq, Repr

/-- `TinyWasmValue`: the tagged union over the four physical categories. -/
inductive TinyWasmValue where
  | Value32 : Value32 → TinyWasmValue
  | Value64 : Value64 → TinyWasmValue
  | Value128 : Value128 → TinyWasmValue
  | ValueRef : ValueRef → TinyWasmValue
deriving DecidableEq, Repr

/-- `WasmValue` from `tinywasm_types`: the fully discriminated semantic value.
Float payloads are carried as bit patterns. -/
inductive WasmValue where
  | I32 : Value32 → WasmValue
  | I64 : Value64 → WasmValue
  | F32 : Value32 → WasmValue
  | F64 : Value64 → WasmValue
  | V128 : Value128 → WasmValue
  | RefFunc : Nat → WasmValue
  | RefExtern : Nat → WasmValue
  | RefNull : ValType → WasmValue
deriving DecidableEq, Repr

/-- `ValueStack::pop_dyn` (value_stack.rs:84-94): dispatches on the type
witness to the matching category's pop and wraps the result. -/
def ValueStack.pop_dyn (s : ValueStack) (val_type : ValType) :
    Except Error TinyWasmValue × ValueStack :=
  match val_type with
  | .I32 =>
    match s.stack_pop .s32 with
    | (.ok v, s1) => (.ok (.Value32 v), s1)
    | (.error e, s1) => (.error e, s1)
  | .I64 =>
    match s.stack_pop .s64 with
    | (.ok v, s1) => (.ok (.Value64 v), s1)
    | (.error e, s1) => (.error e, s1)
  | .V128 =>
    match s.stack_pop .s128 with
    | (.ok v, s1) => (.ok (.Value128 v), s1)
    | (.error e, s1) => (.error e, s1)
  | .RefExtern =>
    match s.stack_pop .sref with
    | (.ok v, s1) => (.ok (.ValueRef v), s1)
    | (.error e, s1) => (.error e, s1)
  | .RefFunc =>
    match s.stack_pop .sref with
    | (.ok v, s1) => (.ok (.ValueRef v), s1)
    | (.error e, s1) => (.error e, s1)
  | .F32 =>
    match s.stack_pop .s32 with
    | (.ok v, s1) => (.ok (.Value32 v), s1)
    | (.error e, s1) => (.error e, s1)
  | .F64 =>
    match s.stack_pop .s64 with
    | (.ok v, s1) => (.ok (.Value64 v), s1)
    | (.error e, s1) => (.error e, s1)

/-- `ValueStack::push_dyn` (value_stack.rs:159-166). -/
def ValueStack.push_dyn (s : ValueStack) (value : TinyWasmValue) : ValueStack :=
  match value with
  | .Value32 v => { s with stack_32 := s.stack_32 ++ [v] }
  | .Value64 v => { s with stack_64 := s.stack_64 ++ [v] }
  | .Value128 v => { s with stack_128 := s.stack_128 ++ [v] }
  | .ValueRef v => { s with stack_ref := s.stack_ref ++ [v] }

/-- `ValueStack::pop_wasmvalue` (value_stack.rs:168-184): pops from the
category selected by the witness and rebuilds the semantic value; a popped
null reference becomes `RefNull` of the witness's subtype. -/
def ValueStack.pop_wasmvalue (s : ValueStack) (val_type : ValType) :
    Except Error WasmValue × ValueStack :=
  match val_type with
  | .I32 =>
    match s.stack_pop .s32 with
    | (.ok v, s1) => (.ok (.I32 v), s1)
    | (.error e, s1) => (.error e, s1)
  | .I64 =>
    match s.stack_pop .s64 with
    | (.ok v, s1) => (.ok (.I64 v), s1)
    | (.error e, s1) => (.error e, s1)
  | .V128 =>
    match s.stack_pop .s128 with
    | (.ok v, s1) => (.ok (.V128 v), s1)
    | (.error e, s1) => (.error e, s1)
  | .F32 =>
    match s.stack_pop .s32 with
    | (.ok v, s1) => (.ok (.F32 v), s1)
    | (.error e, s1) => (.error e, s1)
  | .F64 =>
    match s.stack_pop .s64 with
    | (.ok v, s1) => (.ok (.F64 v), s1)
    | (.error e, s1) => (.error e, s1)
  | .RefExtern =>
    match s.stack_pop .sref with
    | (.ok (some v), s1) => (.ok (.RefExtern v), s1)
    | (.ok none, s1) => (.ok (.RefNull .RefExtern), s1)
    | (.error e, s1) => (.error e, s1)
  | .RefFunc =>
    match s.stack_pop .sref with
    | (.ok (some v), s1) => (.ok (.RefFunc v), s1)
    | (.ok none, s1) => (.ok (.RefNull .RefFunc), s1)
    | (.error e, s1) => (.error e, s1)

/-- The `val_types.iter().map(|t| self.pop_wasmvalue(*t)).collect::<Result<...>>`
pattern shared by `pop_params` and `pop_results`: pop one semantic value per
witness, left to right, stopping at the first error. -/
def ValueStack.pop_wasmvalues (s : ValueStack) (val_types : List ValType) :
    Except Error (List WasmValue) × ValueStack :=
  match val_types with
  | [] => (.ok [], s)
  | t :: rest =>
    match s.pop_wasmvalue t with
    | (.error e, s1) => (.error e, s1)
    | (.ok v, s1) =>
      match s1.pop_wasmvalues rest with
      | (.error e, s2) => (.error e, s2)
      | (.ok vs, s2) => (.ok (v :: vs), s2)

/-- `ValueStack::pop_params` (value_stack.rs:96-98): iterates `val_types`
left to right, popping one semantic value per witness; no reversal. -/
def ValueStack.pop_params (s : ValueStack) (val_types : List ValType) :
    Except Error (List WasmValue) × ValueStack :=
  s.pop_wasmvalues val_types

/-- `ValueStack::pop_results` (value_stack.rs:100-105): iterates `val_types`
reversed, popping one semantic value per witness, then reverses the collected
vector back to declared order. -/
def ValueStack.pop_results (s : ValueStack) (val_types : List ValType) :
    Except Error (List WasmValue) × ValueStack :=
  match s.pop_wasmvalues val_types.reverse with
  | (.error e, s1) => (.error e, s1)
  | (.ok vs, s1) => (.ok vs.reverse, s1)

/-- Modelled from the spec: the `From<&WasmValue> for TinyWasmValue`
conversion of `interpreter/values.rs` (not among the sources under
verification) — each semantic value is stored in its physical category, and
a null reference of either subtype is stored as the `none` reference
(spec §3: "A reference category value is `None` to represent null"). -/
def WasmValue.toTiny : WasmValue → TinyWasmValue
  | .I32 v => .Value32 v
  | .I64 v => .Value64 v
  | .F32 v => .Value32 v
  | .F64 v => .Value64 v
  | .V128 v => .Value128 v
  | .RefFunc a => .ValueRef (some a)
  | .RefExtern a => .ValueRef (some a)
  | .RefNull _ => .ValueRef none

/-- Modelled from the spec: `WasmValue::val_type` of `tinywasm_types` — the
type witness of a semantic value (`RefNull t` carries its subtype `t`). -/
def WasmValue.val_type : WasmValue → ValType
  | .I32 _ => .I32
  | .I64 _ => .I64
  | .F32 _ => .F32
  | .F64 _ => .F64
  | .V128 _ => .V128
  | .RefFunc _ => .RefFunc
  | .RefExtern _ => .RefExtern
  | .RefNull t => t

/-- A semantic value the interpreter can actually produce: a `RefNull`
carries one of the two reference subtypes as its witness. -/
def WasmValue.wf : WasmValue → Bool
  | .RefNull t => t = ValType.RefFunc || t = ValType.RefExtern
  | _ => true

/-- `ValueStack::extend_from_wasmvalues` (value_stack.rs:186-190): pushes
each semantic value in order via `push_dyn` after conversion. -/
def ValueStack.extend_from_wasmvalues (s : ValueStack) (values : List WasmValue) :
    ValueStack :=
  values.foldl (fun acc v => acc.push_dyn v.toTiny) s

/-- `LocalCounts` from `tinywasm_types` (spec §6): per-category local slot
counts of a callee. -/
structure LocalCounts where
  local_32 : Nat
  local_64 : Nat
  local_128 : Nat
  local_ref : Nat
deriving DecidableEq, Repr

/-- `Locals` (stack module): the four category-segmented local arrays of a
call frame. -/
structure Locals where
  locals_32 : List Value32
  locals_64 : List Value64
  locals_128 : List Value128
  locals_ref : List ValueRef
deriving DecidableEq, Repr

/-- `Vec::resize_with(n, Default::default)`: truncate to `n` when longer,
extend with default values when shorter. -/
def listResize (l : List α) (n : Nat) (d : α) : List α :=
  l.take n ++ List.replicate (n - l.length) d

/-- The `for ty in val_types` loop of `ValueStack::pop_locals`
(value_stack.rs:118-125): pop one dynamic value per witness and append it to
the accumulator of its physical category. -/
def ValueStack.pop_locals_loop (s : ValueStack) (val_types : List ValType)
    (l32 : List Value32) (l64 : List Value64) (l128 : List Value128)
    (lref : List ValueRef) :
    Except Error (List Value32 × List Value64 × List Value128 × List ValueRef) ×
      ValueStack :=
  match val_types with
  | [] => (.ok (l32, l64, l128, lref), s)
  | ty :: rest =>
    match s.pop_dyn ty with
    | (.error e, s1) => (.error e, s1)
    | (.ok tv, s1) =>
      match tv with
      | .Value32 v => s1.pop_locals_loop rest (l32 ++ [v]) l64 l128 lref
      | .Value64 v => s1.pop_locals_loop rest l32 (l64 ++ [v]) l128 lref
      | .Value128 v => s1.pop_locals_loop rest l32 l64 (l128 ++ [v]) lref
      | .ValueRef v => s1.pop_locals_loop rest l32 l64 l128 (lref ++ [v])

/-- `ValueStack::pop_locals` (value_stack.rs:108-141): pop the arguments,
reverse each category accumulator back to declaration order, and resize each
to its declared count with default (zero/null) fill. -/
def ValueStack.pop_locals (s : ValueStack) (val_types : List ValType)
    (lc : LocalCounts) : Except Error Locals × ValueStack :=
  match s.pop_locals_loop val_types [] [] [] [] with
  | (.error e, s1) => (.error e, s1)
  | (.ok (l32, l64, l128, lref), s1) =>
    (.ok { locals_32 := listResize l32.reverse lc.local_32 0
           locals_64 := listResize l64.reverse lc.local_64 0
           locals_128 := listResize l128.reverse lc.local_128 0
           locals_ref := listResize lref.reverse lc.local_ref none }, s1)

/-- `StackLocation`: a snapshot of the four sequence lengths. -/
structure StackLocation where
  s32 : Nat
  s64 : Nat
  s128 : Nat
  sref : Nat
deriving DecidableEq, Repr

/-- `StackHeight`: a per-category count of top values to keep during an
unwind. -/
structure StackHeight where
  s32 : Nat
  s64 : Nat
  s128 : Nat
  sref : Nat
deriving DecidableEq, Repr

/-- `ValueStack::height` (value_stack.rs:30-37). -/
def ValueStack.height (s : ValueStack) : StackLocation :=
  { s32 := s.stack_32.length
    s64 := s.stack_64.length
    s128 := s.stack_128.length
    sref := s.stack_ref.length }

/-- The inner per-category `truncate_keep` helper (value_stack.rs:145-151):
when the current length is at most `n`, do nothing; otherwise
`drain(n..(len - end_keep))`.  The drain range is valid only when
`end_keep ≤ len` (otherwise the `u32` subtraction underflows and, in release
mode, produces an end beyond the vector length) and `n ≤ len - end_keep`
(otherwise the range's start exceeds its end); an invalid range makes the
call panic, modelled as `none`. -/
def truncate_keep_cat (data : List α) (n : Nat) (end_keep : Nat) :
    Option (List α) :=
  let len := data.length
  if len ≤ n then
    some data
  else if end_keep ≤ len ∧ n ≤ len - end_keep then
    some (data.take n ++ data.drop (len - end_keep))
  else
    none

/-- `ValueStack::truncate_keep` (value_stack.rs:143-157): apply the
per-category truncation to each of the four sequences; `none` when any
category's drain range is invalid. -/
def ValueStack.truncate_keep (s : ValueStack) (to' : StackLocation)
    (keep : StackHeight) : Option ValueStack :=
  match truncate_keep_cat s.stack_32 to'.s32 keep.s32,
      truncate_keep_cat s.stack_64 to'.s64 keep.s64,
      truncate_keep_cat s.stack_128 to'.s128 keep.s128,
      truncate_keep_cat s.stack_ref to'.sref keep.sref with
  | some l32, some l64, some l128, some lref =>
    some { stack_32 := l32, stack_64 := l64, stack_128 := l128, stack_ref := lref }
  | _, _, _, _ => none

/-! ### Helper lemmas -/

theorem stack_pop_push (c : Category) (v : c.Carrier) (s : ValueStack) :
    (s.stack_push c v).stack_pop c = (.ok v, s) := by
  cases c <;> cases s <;>
    simp [ValueStack.stack_push, ValueStack.stack_pop]

theorem stack_pop_empty (c : Category) (s : ValueStack) (h : s.lenC c = 0) :
    s.stack_pop c = (.error .StackUnderflow, s) := by
  cases c <;>
    simp_all [ValueStack.lenC, ValueStack.stack_pop, List.length_eq_zero]

/-! ### Claims -/

/-- Claim C1: `truncate_keep` treats each of the four categories
independently; a category whose length is at most the saved depth is left
unchanged, otherwise the elements at indices `[to, length - keep)` are
removed, keeping the first `to` and last `keep` elements.  On a length-5
sequence with `to = 2`, `keep = 1` the result is the three elements at
original indices 0, 1 and 4. -/
theorem C1_truncate_keep :
    (∀ (α : Type) (data : List α) (n k : Nat), data.length ≤ n →
        truncate_keep_cat data n k = some data) ∧
    (∀ (α : Type) (data : List α) (n k : Nat), n + k ≤ data.length →
        truncate_keep_cat data n k
          = some (data.take n ++ data.drop (data.length - k))) ∧
    (∀ (α : Type) (v0 v1 v2 v3 v4 : α),
        truncate_keep_cat [v0, v1, v2, v3, v4] 2 1 = some [v0, v1, v4]) ∧
    (∀ (s : ValueStack) (to' : StackLocation) (keep : StackHeight)
        (l32 : List Value32) (l64 : List Value64) (l128 : List Value128)
        (lref : List ValueRef),
        truncate_keep_cat s.stack_32 to'.s32 keep.s32 = some l32 →
        truncate_keep_cat s.stack_64 to'.s64 keep.s64 = some l64 →
        truncate_keep_cat s.stack_128 to'.s128 keep.s128 = some l128 →
        truncate_keep_cat s.stack_ref to'.sref keep.sref = some lref →
        s.truncate_keep to' keep = some ⟨l32, l64, l128, lref⟩) := by
  refine ⟨?_, ?_, ?_, ?_⟩
  · intro α data n k h
    simp [truncate_keep_cat, h]
  · intro α data n k h
    unfold truncate_keep_cat
    by_cases hle : data.length ≤ n
    · have hk : k = 0 := by omega
      have hn : n = data.length := by omega
      simp [hle, hk, hn, List.take_length]
    · have h1 : k ≤ data.length := by omega
      have h2 : n ≤ data.length - k := by omega
      simp [hle, h1, h2]
  · intro α v0 v1 v2 v3 v4
    rfl
  · intro s to' keep l32 l64 l128 lref h32 h64 h128 href
    unfold ValueStack.truncate_keep
    rw [h32, h64, h128, href]

theorem C1_truncate_keep_witness :
    truncate_keep_cat ([10, 11] : List Value32) 2 5 = some [10, 11] ∧
    truncate_keep_cat ([0, 1, 2, 3, 4] : List Value32) 2 1
      = some (([0, 1, 2, 3, 4] : List Value32).take 2
          ++ ([0, 1, 2, 3, 4] : List Value32).drop
              (([0, 1, 2, 3, 4] : List Value32).length - 1)) ∧
    truncate_keep_cat ([0, 1, 2, 3, 4] : List Value32) 2 1 = some [0, 1, 4] ∧
    ValueStack.truncate_keep ⟨[0, 1, 2, 3, 4], [], [], []⟩ ⟨2, 0, 0, 0⟩ ⟨1, 0, 0, 0⟩
      = some ⟨[0, 1, 4], [], [], []⟩ :=
  ⟨C1_truncate_keep.1 _ _ 2 5 (by decide),
   C1_truncate_keep.2.1 _ _ 2 1 (by decide),
   C1_truncate_keep.2.2.1 _ 0 1 2 3 4,
   C1_truncate_keep.2.2.2 ⟨[0, 1, 2, 3, 4], [], [], []⟩ ⟨2, 0, 0, 0⟩ ⟨1, 0, 0, 0⟩
     [0, 1, 4] [] [] [] (by decide) (by decide) (by decide) (by decide)⟩

/-- Claim C10: the per-category truncation completes normally exactly when
the category length is at most the saved depth or at least depth plus keep;
in the strict middle region `to < len < to + keep` the drain range is
invalid and the operation does not complete normally. -/
theorem C10_truncate_keep_totality :
    (∀ (α : Type) (data : List α) (n k : Nat),
        (truncate_keep_cat data n k).isSome ↔
          data.length ≤ n ∨ n + k ≤ data.length) ∧
    (∀ (α : Type) (data : List α) (n k : Nat),
        n < data.length → data.length < n + k →
        truncate_keep_cat data n k = none) := by
  constructor
  · intro α data n k
    unfold truncate_keep_cat
    by_cases h1 : data.length ≤ n
    · simp [h1]
    · by_cases h2 : k ≤ data.length ∧ n ≤ data.length - k
      · simp [h1, h2]
        omega
      · simp [h1, h2]
        omega
  · intro α data n k hlo hhi
    unfold truncate_keep_cat
    have h1 : ¬ data.length ≤ n := by omega
    have h2 : ¬ (k ≤ data.length ∧ n ≤ data.length - k) := by omega
    simp [h1, h2]

theorem C10_truncate_keep_totality_witness :
    truncate_keep_cat ([0, 1, 2, 3, 4] : List Value32) 4 3 = none :=
  C10_truncate_keep_totality.2 _ _ 4 3 (by decide) (by decide)

/-- Claim C4: no operation leaves a partial mutation behind a failure —
a pop on an empty category returns `StackUnderflow` with the stack exactly
as it was, and a `calculate`/`replace_top` whose caller-supplied function
fails returns that error verbatim with the stack in the post-pop, pre-push
state. -/
theorem C4_no_partial_mutation :
    (∀ (c : Category) (s : ValueStack), s.lenC c = 0 →
        s.stack_pop c = (.error .StackUnderflow, s)) ∧
    (∀ (c u : Category) (f : c.Carrier → c.Carrier → Except Error u.Carrier)
        (s s1 s2 : ValueStack) (v1 v2 : c.Carrier) (e : Error),
        s.stack_pop c = (.ok v2, s1) → s1.stack_pop c = (.ok v1, s2) →
        f v1 v2 = .error e →
        s.calculate c u f = (.error e, s2)) ∧
    (∀ (c u : Category) (f : c.Carrier → Except Error u.Carrier)
        (s s1 : ValueStack) (v1 : c.Carrier) (e : Error),
        s.stack_pop c = (.ok v1, s1) → f v1 = .error e →
        s.replace_top c u f = (.error e, s1)) := by
  refine ⟨stack_pop_empty, ?_, ?_⟩
  · intro c u f s s1 s2 v1 v2 e h2 h1 hf
    simp only [ValueStack.calculate, h2, h1, hf]
  · intro c u f s s1 v1 e h1 hf
    simp only [ValueStack.replace_top, h1, hf]

theorem C4_no_partial_mutation_witness :
    ValueStack.stack_pop .s64 ⟨[3], [], [7], []⟩
      = (.error .StackUnderflow, ⟨[3], [], [7], []⟩) ∧
    ValueStack.calculate .s32 .s32 (fun _ _ => .error (.Trap 9)) ⟨[1, 2], [], [], []⟩
      = (.error (.Trap 9), ⟨[], [], [], []⟩) ∧
    ValueStack.replace_top .s32 .s32 (fun _ => .error (.Trap 5)) ⟨[1, 2], [], [], []⟩
      = (.error (.Trap 5), ⟨[1], [], [], []⟩) :=
  ⟨C4_no_partial_mutation.1 .s64 ⟨[3], [], [7], []⟩ (by decide),
   C4_no_partial_mutation.2.1 .s32 .s32 _ ⟨[1, 2], [], [], []⟩ ⟨[1], [], [], []⟩
     ⟨[], [], [], []⟩ 1 2 (.Trap 9) rfl rfl rfl,
   C4_no_partial_mutation.2.2 .s32 .s32 _ ⟨[1, 2], [], [], []⟩ ⟨[1], [], [], []⟩
     2 (.Trap 5) rfl rfl⟩

/-- Claim C5: after pushing two same-typed values `a` then `b` and a 32-bit
condition, `select` succeeds; a zero condition leaves `b` (replacing `a`), a
non-zero condition leaves `a`; exactly one value of the operand type remains
and the condition is always consumed. -/
theorem C5_select_semantics (c : Category) (s : ValueStack) (a b : c.Carrier)
    (cond : Value32) :
    (((s.stack_push c a).stack_push c b).stack_push .s32 cond).select c
      = (.ok (), s.stack_push c (if cond = 0 then b else a)) := by
  simp only [ValueStack.select, stack_pop_push]
  by_cases h : cond = 0
  · simp [h, stack_pop_push]
  · simp only [if_neg h]

/-- Claim C6: `calculate` pops the right operand first: with `v1` pushed and
then `v2` pushed, the caller-supplied function is invoked as `f v1 v2` and
its result is pushed. -/
theorem C6_calculate_operand_order (c u : Category)
    (f : c.Carrier → c.Carrier → Except Error u.Carrier) (s : ValueStack)
    (v1 v2 : c.Carrier) (r : u.Carrier) (h : f v1 v2 = .ok r) :
    ((s.stack_push c v1).stack_push c v2).calculate c u f
      = (.ok (), s.stack_push u r) := by
  simp only [ValueStack.calculate, stack_pop_push, h]

theorem C6_calculate_operand_order_witness :
    ((((⟨[], [], [], []⟩ : ValueStack).stack_push .s32 1).stack_push .s32 2).calculate
        .s32 .s32 (fun x y => .ok (x * 10 + y)))
      = (.ok (), (⟨[], [], [], []⟩ : ValueStack).stack_push .s32 12) :=
  C6_calculate_operand_order .s32 .s32 _ ⟨[], [], [], []⟩ 1 2 12 rfl

/-- The sequence of one category, as a list. -/
def ValueStack.listC (c : Category) (s : ValueStack) : List c.Carrier :=
  match c with
  | .s32 => s.stack_32
  | .s64 => s.stack_64
  | .s128 => s.stack_128
  | .sref => s.stack_ref

/-- Replace the sequence of one category. -/
def ValueStack.setC (c : Category) (l : List c.Carrier) (s : ValueStack) :
    ValueStack :=
  match c, l with
  | .s32, l => { s with stack_32 := l }
  | .s64, l => { s with stack_64 := l }
  | .s128, l => { s with stack_128 := l }
  | .sref, l => { s with stack_ref := l }

theorem listC_setC_self (c : Category) (l : List c.Carrier) (s : ValueStack) :
    (s.setC c l).listC c = l := by
  cases c <;> rfl

theorem listC_setC_of_ne {c' c : Category} (h : c' ≠ c) (l : List c'.Carrier)
    (s : ValueStack) : (s.setC c' l).listC c = s.listC c := by
  cases c' <;> cases c <;> first | rfl | exact absurd rfl h

theorem lenC_listC (c : Category) (s : ValueStack) :
    s.lenC c = (s.listC c).length := by
  cases c <;> rfl

theorem stack_pop_def (c : Category) (s : ValueStack) :
    s.stack_pop c =
      match (s.listC c).getLast? with
      | some v => (.ok v, s.setC c (s.listC c).dropLast)
      | none => (.error .StackUnderflow, s) := by
  cases c <;> cases s <;>
    simp only [ValueStack.stack_pop, ValueStack.listC, ValueStack.setC] <;>
    (split <;> simp_all)

theorem stack_push_def (c : Category) (v : c.Carrier) (s : ValueStack) :
    s.stack_push c v = s.setC c (s.listC c ++ [v]) := by
  cases c <;> cases s <;> rfl

theorem getLast?_some_pos {α : Type} {l : List α} {x : α}
    (e : l.getLast? = some x) : 1 ≤ l.length := by
  cases l with
  | nil => simp at e
  | cons a t => simp

/-- The configurations in which `select` over category `c` actually runs out
of values: the 32-bit condition is missing, the first operand (`val2`) is
missing after the condition is popped, or the condition is zero and the
second operand (`val1`) is missing after the first two pops. -/
def selectUnderflows (c : Category) (s : ValueStack) : Prop :=
  match c with
  | .s32 => s.lenC .s32 < 2 ∨
      ((s.listC .s32).getLast? = some 0 ∧ s.lenC .s32 < 3)
  | c => s.lenC .s32 = 0 ∨ s.lenC c = 0 ∨
      ((s.listC .s32).getLast? = some 0 ∧ s.lenC c < 2)

theorem select_underflow_nonshared (c : Category) (hc : c ≠ .s32)
    (s : ValueStack)
    (h : s.lenC .s32 = 0 ∨ s.lenC c = 0 ∨
      ((s.listC .s32).getLast? = some 0 ∧ s.lenC c < 2)) :
    (s.select c).1 = .error .StackUnderflow := by
  have hne : Category.s32 ≠ c := Ne.symm hc
  simp only [lenC_listC] at h
  cases e1 : (s.listC .s32).getLast? with
  | none => simp [ValueStack.select, stack_pop_def, e1]
  | some x =>
    cases e2 : (s.listC c).getLast? with
    | none =>
      simp [ValueStack.select, stack_pop_def, e1, e2, listC_setC_self,
        listC_setC_of_ne hne]
    | some y =>
      by_cases hx : x = 0
      · subst hx
        cases e3 : (s.listC c).dropLast.getLast? with
        | none =>
          simp [ValueStack.select, stack_pop_def, e1, e2, e3, listC_setC_self,
            listC_setC_of_ne hne]
        | some z =>
          exfalso
          have h1 := getLast?_some_pos e1
          have h2 := getLast?_some_pos e2
          have h3 := getLast?_some_pos e3
          simp [List.length_dropLast] at h3
          rcases h with h | h | ⟨hz, h4⟩ <;> omega
      · exfalso
        have h1 := getLast?_some_pos e1
        have h2 := getLast?_some_pos e2
        rcases h with h | h | ⟨hz, h4⟩
        · omega
        · omega
        · rw [e1] at hz
          injection hz with hz
          exact hx hz

/-- Claim C2 counterexample: the whole stack holds only two values (a 32-bit
operand `5` beneath a non-zero 32-bit condition `1`, fewer than the three the
claim requires), yet `select` over the 32-bit category succeeds instead of
failing with `StackUnderflow`. -/
theorem C2_select_counterexample :
    ValueStack.lenC .s32 ⟨[5, 1], [], [], []⟩ +
        ValueStack.lenC .s64 ⟨[5, 1], [], [], []⟩ +
        ValueStack.lenC .s128 ⟨[5, 1], [], [], []⟩ +
        ValueStack.lenC .sref ⟨[5, 1], [], [], []⟩ = 2 ∧
    ValueStack.select .s32 ⟨[5, 1], [], [], []⟩ = (.ok (), ⟨[], [], [], []⟩) :=
  ⟨rfl, rfl⟩

/-- Claim C2 (amended): for every operand category, `select` fails with
`StackUnderflow` when the 32-bit condition is missing, when the first
operand (`val2`) is missing after the condition is popped, or when the
condition is zero and the second operand (`val1`) is missing — a non-zero
condition needs only the condition and one operand, not three values. -/
theorem C2_select_underflow_amended (c : Category) (s : ValueStack)
    (h : selectUnderflows c s) :
    (s.select c).1 = .error .StackUnderflow := by
  cases c with
  | s32 =>
    simp only [selectUnderflows, lenC_listC] at h
    cases e1 : (s.listC .s32).getLast? with
    | none => simp [ValueStack.select, stack_pop_def, e1]
    | some x =>
      cases e2 : (s.listC .s32).dropLast.getLast? with
      | none =>
        simp [ValueStack.select, stack_pop_def, e1, e2, listC_setC_self]
      | some y =>
        by_cases hx : x = 0
        · subst hx
          cases e3 : (s.listC .s32).dropLast.dropLast.getLast? with
          | none =>
            simp [ValueStack.select, stack_pop_def, e1, e2, e3,
              listC_setC_self]
          | some z =>
            exfalso
            have h2 := getLast?_some_pos e2
            have h3 := getLast?_some_pos e3
            simp [List.length_dropLast] at h2 h3
            rcases h with h | ⟨hz, h4⟩ <;> omega
        · exfalso
          have h2 := getLast?_some_pos e2
          simp [List.length_dropLast] at h2
          rcases h with h | ⟨hz, h4⟩
          · omega
          · rw [e1] at hz
            injection hz with hz
            exact hx hz
  | s64 =>
    exact select_underflow_nonshared .s64 (by simp) s
      (by simpa [selectUnderflows] using h)
  | s128 =>
    exact select_underflow_nonshared .s128 (by simp) s
      (by simpa [selectUnderflows] using h)
  | sref =>
    exact select_underflow_nonshared .sref (by simp) s
      (by simpa [selectUnderflows] using h)

theorem C2_select_underflow_amended_witness :
    (ValueStack.select .s32 ⟨[7, 0], [], [], []⟩).1 = .error .StackUnderflow ∧
    (ValueStack.select .s64 ⟨[0], [9], [], []⟩).1 = .error .StackUnderflow :=
  ⟨C2_select_underflow_amended .s32 ⟨[7, 0], [], [], []⟩ (by right; exact ⟨rfl, by decide⟩),
   C2_select_underflow_amended .s64 ⟨[0], [9], [], []⟩ (by right; right; exact ⟨rfl, by decide⟩)⟩

/-- Claim C3: evaluation of `pop_params` at the failing input — two `I32`
parameters pushed in declaration order as 10 then 20 come back in pop order
`[20, 10]`, not in the declaration order `[10, 20]` the spec requires
(`pop_params`, unlike `pop_results`, never reverses the popped values). -/
theorem C3_pop_params_at_failing_input :
    ValueStack.pop_params ⟨[10, 20], [], [], []⟩ [.I32, .I32]
      = (.ok [.I32 20, .I32 10], ⟨[], [], [], []⟩) ∧
    [WasmValue.I32 20, WasmValue.I32 10] ≠ [WasmValue.I32 10, WasmValue.I32 20] :=
  ⟨rfl, by decide⟩

/-- Modelled from the spec: the fixed, total mapping of each value type to
its physical category (spec §3). -/
def ValType.cat : ValType → Category
  | .I32 => .s32
  | .I64 => .s64
  | .F32 => .s32
  | .F64 => .s64
  | .V128 => .s128
  | .RefFunc => .sref
  | .RefExtern => .sref

/-- How many of the given value types live in category `c`. -/
def needC (c : Category) (vt : List ValType) : Nat :=
  vt.countP (fun t => decide (t.cat = c))

theorem pop_locals_loop_spec (vt : List ValType) :
    ∀ (s : ValueStack) (a32 : List Value32) (a64 : List Value64)
      (a128 : List Value128) (aref : List ValueRef),
    (∀ c, needC c vt ≤ s.lenC c) →
    s.pop_locals_loop vt a32 a64 a128 aref =
      (.ok (a32 ++ ((s.listC .s32).drop (s.lenC .s32 - needC .s32 vt)).reverse,
            a64 ++ ((s.listC .s64).drop (s.lenC .s64 - needC .s64 vt)).reverse,
            a128 ++ ((s.listC .s128).drop (s.lenC .s128 - needC .s128 vt)).reverse,
            aref ++ ((s.listC .sref).drop (s.lenC .sref - needC .sref vt)).reverse),
       ⟨(s.listC .s32).take (s.lenC .s32 - needC .s32 vt),
        (s.listC .s64).take (s.lenC .s64 - needC .s64 vt),
        (s.listC .s128).take (s.lenC .s128 - needC .s128 vt),
        (s.listC .sref).take (s.lenC .sref - needC .sref vt)⟩) := by
  induction vt with
  | nil =>
    intro s a32 a64 a128 aref h
    obtain ⟨l32, l64, l128, lref⟩ := s
    simp [ValueStack.pop_locals_loop, needC, ValueStack.listC, ValueStack.lenC]
  | cons t rest ih =>
    intro s a32 a64 a128 aref h
    obtain ⟨l32, l64, l128, lref⟩ := s
    cases t with
    | I32 =>
      have hn : needC .s32 (ValType.I32 :: rest) = needC .s32 rest + 1 := by
        simp [needC, List.countP_cons, ValType.cat]
      have hlen := h .s32
      simp only [ValueStack.lenC] at hlen
      rcases List.eq_nil_or_concat l32 with rfl | ⟨tl, v, rfl⟩
      · rw [hn] at hlen
        simp at hlen
      · simp only [List.concat_eq_append] at *
        simp only [ValueStack.pop_locals_loop, ValueStack.pop_dyn,
          ValueStack.stack_pop, List.getLast?_concat, List.dropLast_concat]
        rw [ih ⟨tl, l64, l128, lref⟩ (a32 ++ [v]) a64 a128 aref (by
          intro c
          have hc := h c
          cases c <;>
            simp [needC, List.countP_cons, ValType.cat, ValueStack.lenC] at hc ⊢ <;>
            omega)]
        simp [ValueStack.listC, ValueStack.lenC, needC, List.countP_cons,
          ValType.cat, Nat.succ_sub_succ, List.drop_append_of_le_length,
          List.take_append_of_le_length, Nat.sub_le, List.reverse_append]
    | I64 =>
      have hn : needC .s64 (ValType.I64 :: rest) = needC .s64 rest + 1 := by
        simp [needC, List.countP_cons, ValType.cat]
      have hlen := h .s64
      simp only [ValueStack.lenC] at hlen
      rcases List.eq_nil_or_concat l64 with rfl | ⟨tl, v, rfl⟩
      · rw [hn] at hlen
        simp at hlen
      · simp only [List.concat_eq_append] at *
        simp only [ValueStack.pop_locals_loop, ValueStack.pop_dyn,
          ValueStack.stack_pop, List.getLast?_concat, List.dropLast_concat]
        rw [ih ⟨l32, tl, l128, lref⟩ a32 (a64 ++ [v]) a128 aref (by
          intro c
          have hc := h c
          cases c <;>
            simp [needC, List.countP_cons, ValType.cat, ValueStack.lenC] at hc ⊢ <;>
            omega)]
        simp [ValueStack.listC, ValueStack.lenC, needC, List.countP_cons,
          ValType.cat, Nat.succ_sub_succ, List.drop_append_of_le_length,
          List.take_append_of_le_length, Nat.sub_le, List.reverse_append]
    | F32 =>
      have hn : needC .s32 (ValType.F32 :: rest) = needC .s32 rest + 1 := by
        simp [needC, List.countP_cons, ValType.cat]
      have hlen := h .s32
      simp only [ValueStack.lenC] at hlen
      rcases List.eq_nil_or_concat l32 with rfl | ⟨tl, v, rfl⟩
      · rw [hn] at hlen
        simp at hlen
      · simp only [List.concat_eq_append] at *
        simp only [ValueStack.pop_locals_loop, ValueStack.pop_dyn,
          ValueStack.stack_pop, List.getLast?_concat, List.dropLast_concat]
        rw [ih ⟨tl, l64, l128, lref⟩ (a32 ++ [v]) a64 a128 aref (by
          intro c
          have hc := h c
          cases c <;>
            simp [needC, List.countP_cons, ValType.cat, ValueStack.lenC] at hc ⊢ <;>
            omega)]
        simp [ValueStack.listC, ValueStack.lenC, needC, List.countP_cons,
          ValType.cat, Nat.succ_sub_succ, List.drop_append_of_le_length,
          List.take_append_of_le_length, Nat.sub_le, List.reverse_append]
    | F64 =>
      have hn : needC .s64 (ValType.F64 :: rest) = needC .s64 rest + 1 := by
        simp [needC, List.countP_cons, ValType.cat]
      have hlen := h .s64
      simp only [ValueStack.lenC] at hlen
      rcases List.eq_nil_or_concat l64 with rfl | ⟨tl, v, rfl⟩
      · rw [hn] at hlen
        simp at hlen
      · simp only [List.concat_eq_append] at *
        simp only [ValueStack.pop_locals_loop, ValueStack.pop_dyn,
          ValueStack.stack_pop, List.getLast?_concat, List.dropLast_concat]
        rw [ih ⟨l32, tl, l128, lref⟩ a32 (a64 ++ [v]) a128 aref (by
          intro c
          have hc := h c
          cases c <;>
            simp [needC, List.countP_cons, ValType.cat, ValueStack.lenC] at hc ⊢ <;>
            omega)]
        simp [ValueStack.listC, ValueStack.lenC, needC, List.countP_cons,
          ValType.cat, Nat.succ_sub_succ, List.drop_append_of_le_length,
          List.take_append_of_le_length, Nat.sub_le, List.reverse_append]
    | V128 =>
      have hn : needC .s128 (ValType.V128 :: rest) = needC .s128 rest + 1 := by
        simp [needC, List.countP_cons, ValType.cat]
      have hlen := h .s128
      simp only [ValueStack.lenC] at hlen
      rcases List.eq_nil_or_concat l128 with rfl | ⟨tl, v, rfl⟩
      · rw [hn] at hlen
        simp at hlen
      · simp only [List.concat_eq_append] at *
        simp only [ValueStack.pop_locals_loop, ValueStack.pop_dyn,
          ValueStack.stack_pop, List.getLast?_concat, List.dropLast_concat]
        rw [ih ⟨l32, l64, tl, lref⟩ a32 a64 (a128 ++ [v]) aref (by
          intro c
          have hc := h c
          cases c <;>
            simp [needC, List.countP_cons, ValType.cat, ValueStack.lenC] at hc ⊢ <;>
            omega)]
        simp [ValueStack.listC, ValueStack.lenC, needC, List.countP_cons,
          ValType.cat, Nat.succ_sub_succ, List.drop_append_of_le_length,
          List.take_append_of_le_length, Nat.sub_le, List.reverse_append]
    | RefFunc =>
      have hn : needC .sref (ValType.RefFunc :: rest) = needC .sref rest + 1 := by
        simp [needC, List.countP_cons, ValType.cat]
      have hlen := h .sref
      simp only [ValueStack.lenC] at hlen
      rcases List.eq_nil_or_concat lref with rfl | ⟨tl, v, rfl⟩
      · rw [hn] at hlen
        simp at hlen
      · simp only [List.concat_eq_append] at *
        simp only [ValueStack.pop_locals_loop, ValueStack.pop_dyn,
          ValueStack.stack_pop, List.getLast?_concat, List.dropLast_concat]
        rw [ih ⟨l32, l64, l128, tl⟩ a32 a64 a128 (aref ++ [v]) (by
          intro c
          have hc := h c
          cases c <;>
            simp [needC, List.countP_cons, ValType.cat, ValueStack.lenC] at hc ⊢ <;>
            omega)]
        simp [ValueStack.listC, ValueStack.lenC, needC, List.countP_cons,
          ValType.cat, Nat.succ_sub_succ, List.drop_append_of_le_length,
          List.take_append_of_le_length, Nat.sub_le, List.reverse_append]
    | RefExtern =>
      have hn : needC .sref (ValType.RefExtern :: rest) = needC .sref rest + 1 := by
        simp [needC, List.countP_cons, ValType.cat]
      have hlen := h .sref
      simp only [ValueStack.lenC] at hlen
      rcases List.eq_nil_or_concat lref with rfl | ⟨tl, v, rfl⟩
      · rw [hn] at hlen
        simp at hlen
      · simp only [List.concat_eq_append] at *
        simp only [ValueStack.pop_locals_loop, ValueStack.pop_dyn,
          ValueStack.stack_pop, List.getLast?_concat, List.dropLast_concat]
        rw [ih ⟨l32, l64, l128, tl⟩ a32 a64 a128 (aref ++ [v]) (by
          intro c
          have hc := h c
          cases c <;>
            simp [needC, List.countP_cons, ValType.cat, ValueStack.lenC] at hc ⊢ <;>
            omega)]
        simp [ValueStack.listC, ValueStack.lenC, needC, List.countP_cons,
          ValType.cat, Nat.succ_sub_succ, List.drop_append_of_le_length,
          List.take_append_of_le_length, Nat.sub_le, List.reverse_append]

theorem pop_locals_loop_underflow (vt : List ValType) :
    ∀ (s : ValueStack) (a32 : List Value32) (a64 : List Value64)
      (a128 : List Value128) (aref : List ValueRef) (c : Category),
    s.lenC c < needC c vt →
    (s.pop_locals_loop vt a32 a64 a128 aref).1 = .error .StackUnderflow := by
  induction vt with
  | nil =>
    intro s a32 a64 a128 aref c h
    simp [needC] at h
  | cons t rest ih =>
    intro s a32 a64 a128 aref c h
    obtain ⟨l32, l64, l128, lref⟩ := s
    cases t with
    | I32 =>
      rcases List.eq_nil_or_concat l32 with rfl | ⟨tl, v, rfl⟩
      · simp [ValueStack.pop_locals_loop, ValueStack.pop_dyn, ValueStack.stack_pop]
      · simp only [List.concat_eq_append] at *
        simp only [ValueStack.pop_locals_loop, ValueStack.pop_dyn,
          ValueStack.stack_pop, List.getLast?_concat, List.dropLast_concat]
        exact ih ⟨tl, l64, l128, lref⟩ (a32 ++ [v]) a64 a128 aref c (by
          cases c <;>
            simp [needC, List.countP_cons, ValType.cat, ValueStack.lenC] at h ⊢ <;>
            omega)
    | I64 =>
      rcases List.eq_nil_or_concat l64 with rfl | ⟨tl, v, rfl⟩
      · simp [ValueStack.pop_locals_loop, ValueStack.pop_dyn, ValueStack.stack_pop]
      · simp only [List.concat_eq_append] at *
        simp only [ValueStack.pop_locals_loop, ValueStack.pop_dyn,
          ValueStack.stack_pop, List.getLast?_concat, List.dropLast_concat]
        exact ih ⟨l32, tl, l128, lref⟩ a32 (a64 ++ [v]) a128 aref c (by
          cases c <;>
            simp [needC, List.countP_cons, ValType.cat, ValueStack.lenC] at h ⊢ <;>
            omega)
    | F32 =>
      rcases List.eq_nil_or_concat l32 with rfl | ⟨tl, v, rfl⟩
      · simp [ValueStack.pop_locals_loop, ValueStack.pop_dyn, ValueStack.stack_pop]
      · simp only [List.concat_eq_append] at *
        simp only [ValueStack.pop_locals_loop, ValueStack.pop_dyn,
          ValueStack.stack_pop, List.getLast?_concat, List.dropLast_concat]
        exact ih ⟨tl, l64, l128, lref⟩ (a32 ++ [v]) a64 a128 aref c (by
          cases c <;>
            simp [needC, List.countP_cons, ValType.cat, ValueStack.lenC] at h ⊢ <;>
            omega)
    | F64 =>
      rcases List.eq_nil_or_concat l64 with rfl | ⟨tl, v, rfl⟩
      · simp [ValueStack.pop_locals_loop, ValueStack.pop_dyn, ValueStack.stack_pop]
      · simp only [List.concat_eq_append] at *
        simp only [ValueStack.pop_locals_loop, ValueStack.pop_dyn,
          ValueStack.stack_pop, List.getLast?_concat, List.dropLast_concat]
        exact ih ⟨l32, tl, l128, lref⟩ a32 (a64 ++ [v]) a128 aref c (by
          cases c <;>
            simp [needC, List.countP_cons, ValType.cat, ValueStack.lenC] at h ⊢ <;>
            omega)
    | V128 =>
      rcases List.eq_nil_or_concat l128 with rfl | ⟨tl, v, rfl⟩
      · simp [ValueStack.pop_locals_loop, ValueStack.pop_dyn, ValueStack.stack_pop]
      · simp only [List.concat_eq_append] at *
        simp only [ValueStack.pop_locals_loop, ValueStack.pop_dyn,
          ValueStack.stack_pop, List.getLast?_concat, List.dropLast_concat]
        exact ih ⟨l32, l64, tl, lref⟩ a32 a64 (a128 ++ [v]) aref c (by
          cases c <;>
            simp [needC, List.countP_cons, ValType.cat, ValueStack.lenC] at h ⊢ <;>
            omega)
    | RefFunc =>
      rcases List.eq_nil_or_concat lref with rfl | ⟨tl, v, rfl⟩
      · simp [ValueStack.pop_locals_loop, ValueStack.pop_dyn, ValueStack.stack_pop]
      · simp only [List.concat_eq_append] at *
        simp only [ValueStack.pop_locals_loop, ValueStack.pop_dyn,
          ValueStack.stack_pop, List.getLast?_concat, List.dropLast_concat]
        exact ih ⟨l32, l64, l128, tl⟩ a32 a64 a128 (aref ++ [v]) c (by
          cases c <;>
            simp [needC, List.countP_cons, ValType.cat, ValueStack.lenC] at h ⊢ <;>
            omega)
    | RefExtern =>
      rcases List.eq_nil_or_concat lref with rfl | ⟨tl, v, rfl⟩
      · simp [ValueStack.pop_locals_loop, ValueStack.pop_dyn, ValueStack.stack_pop]
      · simp only [List.concat_eq_append] at *
        simp only [ValueStack.pop_locals_loop, ValueStack.pop_dyn,
          ValueStack.stack_pop, List.getLast?_concat, List.dropLast_concat]
        exact ih ⟨l32, l64, l128, tl⟩ a32 a64 a128 (aref ++ [v]) c (by
          cases c <;>
            simp [needC, List.countP_cons, ValType.cat, ValueStack.lenC] at h ⊢ <;>
            omega)

/-- Claim C7: `pop_locals` pops exactly one value per declared argument type
(the last `needC c vt` values of each category, in declaration order after
the internal reversal), extends each category to its declared count with
default (zero/null) values, fails with `StackUnderflow` when any category
holds fewer values than required, and on the concrete input
`val_types = [I32, I64]`, values `(10, 20)`,
`counts = {local_32 := 2, local_64 := 1, local_128 := 0, local_ref := 0}`
produces `locals_32 = [10, 0]` and `locals_64 = [20]`. -/
theorem C7_pop_locals :
    (∀ (s : ValueStack) (vt : List ValType) (lc : LocalCounts),
        (∀ c, needC c vt ≤ s.lenC c) →
        needC .s32 vt ≤ lc.local_32 → needC .s64 vt ≤ lc.local_64 →
        needC .s128 vt ≤ lc.local_128 → needC .sref vt ≤ lc.local_ref →
        s.pop_locals vt lc =
          (.ok { locals_32 := (s.listC .s32).drop (s.lenC .s32 - needC .s32 vt)
                    ++ List.replicate (lc.local_32 - needC .s32 vt) 0,
                 locals_64 := (s.listC .s64).drop (s.lenC .s64 - needC .s64 vt)
                    ++ List.replicate (lc.local_64 - needC .s64 vt) 0,
                 locals_128 := (s.listC .s128).drop (s.lenC .s128 - needC .s128 vt)
                    ++ List.replicate (lc.local_128 - needC .s128 vt) 0,
                 locals_ref := (s.listC .sref).drop (s.lenC .sref - needC .sref vt)
                    ++ List.replicate (lc.local_ref - needC .sref vt) none },
           ⟨(s.listC .s32).take (s.lenC .s32 - needC .s32 vt),
            (s.listC .s64).take (s.lenC .s64 - needC .s64 vt),
            (s.listC .s128).take (s.lenC .s128 - needC .s128 vt),
            (s.listC .sref).take (s.lenC .sref - needC .sref vt)⟩)) ∧
    (∀ (s : ValueStack) (vt : List ValType) (lc : LocalCounts) (c : Category),
        s.lenC c < needC c vt →
        (s.pop_locals vt lc).1 = .error .StackUnderflow) ∧
    (ValueStack.pop_locals ⟨[10], [20], [], []⟩ [.I32, .I64] ⟨2, 1, 0, 0⟩
      = (.ok { locals_32 := [10, 0], locals_64 := [20], locals_128 := [],
               locals_ref := [] }, ⟨[], [], [], []⟩)) := by
  refine ⟨?_, ?_, rfl⟩
  · intro s vt lc h h32 h64 h128 href
    have len32 : ((s.listC .s32).drop (s.lenC .s32 - needC .s32 vt)).length
        = needC .s32 vt := by
      have := h .s32
      simp only [List.length_drop, lenC_listC] at *
      omega
    have len64 : ((s.listC .s64).drop (s.lenC .s64 - needC .s64 vt)).length
        = needC .s64 vt := by
      have := h .s64
      simp only [List.length_drop, lenC_listC] at *
      omega
    have len128 : ((s.listC .s128).drop (s.lenC .s128 - needC .s128 vt)).length
        = needC .s128 vt := by
      have := h .s128
      simp only [List.length_drop, lenC_listC] at *
      omega
    have lenref : ((s.listC .sref).drop (s.lenC .sref - needC .sref vt)).length
        = needC .sref vt := by
      have := h .sref
      simp only [List.length_drop, lenC_listC] at *
      omega
    simp only [ValueStack.pop_locals]
    rw [pop_locals_loop_spec vt s [] [] [] [] h]
    simp only [List.nil_append, listResize, List.reverse_reverse,
      List.length_reverse]
    rw [len32, len64, len128, lenref]
    rw [List.take_of_length_le (by rw [len32]; exact h32),
      List.take_of_length_le (by rw [len64]; exact h64),
      List.take_of_length_le (by rw [len128]; exact h128),
      List.take_of_length_le (by rw [lenref]; exact href)]
  · intro s vt lc c h
    have hu := pop_locals_loop_underflow vt s [] [] [] [] c h
    rcases hres : s.pop_locals_loop vt [] [] [] [] with ⟨r, s1⟩
    rw [hres] at hu
    simp only at hu
    subst hu
    simp [ValueStack.pop_locals, hres]

theorem C7_pop_locals_witness :
    ValueStack.pop_locals ⟨[10], [20], [], []⟩ [.I32, .I64] ⟨2, 1, 0, 0⟩
      = (.ok { locals_32 :=
                 (ValueStack.listC .s32 ⟨[10], [20], [], []⟩).drop
                     (ValueStack.lenC .s32 ⟨[10], [20], [], []⟩
                       - needC .s32 [.I32, .I64])
                   ++ List.replicate (2 - needC .s32 [.I32, .I64]) 0,
               locals_64 :=
                 (ValueStack.listC .s64 ⟨[10], [20], [], []⟩).drop
                     (ValueStack.lenC .s64 ⟨[10], [20], [], []⟩
                       - needC .s64 [.I32, .I64])
                   ++ List.replicate (1 - needC .s64 [.I32, .I64]) 0,
               locals_128 :=
                 (ValueStack.listC .s128 ⟨[10], [20], [], []⟩).drop
                     (ValueStack.lenC .s128 ⟨[10], [20], [], []⟩
                       - needC .s128 [.I32, .I64])
                   ++ List.replicate (0 - needC .s128 [.I32, .I64]) 0,
               locals_ref :=
                 (ValueStack.listC .sref ⟨[10], [20], [], []⟩).drop
                     (ValueStack.lenC .sref ⟨[10], [20], [], []⟩
                       - needC .sref [.I32, .I64])
                   ++ List.replicate (0 - needC .sref [.I32, .I64]) none },
         ⟨(ValueStack.listC .s32 ⟨[10], [20], [], []⟩).take
             (ValueStack.lenC .s32 ⟨[10], [20], [], []⟩ - needC .s32 [.I32, .I64]),
          (ValueStack.listC .s64 ⟨[10], [20], [], []⟩).take
             (ValueStack.lenC .s64 ⟨[10], [20], [], []⟩ - needC .s64 [.I32, .I64]),
          (ValueStack.listC .s128 ⟨[10], [20], [], []⟩).take
             (ValueStack.lenC .s128 ⟨[10], [20], [], []⟩ - needC .s128 [.I32, .I64]),
          (ValueStack.listC .sref ⟨[10], [20], [], []⟩).take
             (ValueStack.lenC .sref ⟨[10], [20], [], []⟩ - needC .sref [.I32, .I64])⟩) ∧
    (ValueStack.pop_locals ⟨[], [], [], []⟩ [.I32] ⟨1, 0, 0, 0⟩).1
      = .error .StackUnderflow :=
  ⟨C7_pop_locals.1 ⟨[10], [20], [], []⟩ [.I32, .I64] ⟨2, 1, 0, 0⟩
     (by intro c; cases c <;> decide) (by decide) (by decide) (by decide) (by decide),
   C7_pop_locals.2.1 ⟨[], [], [], []⟩ [.I32] ⟨1, 0, 0, 0⟩ .s32 (by decide)⟩

theorem pop_wasmvalue_push_dyn (w : WasmValue) (hw : w.wf = true)
    (s : ValueStack) :
    (s.push_dyn w.toTiny).pop_wasmvalue w.val_type = (.ok w, s) := by
  obtain ⟨l32, l64, l128, lref⟩ := s
  cases w with
  | RefNull t =>
    simp only [WasmValue.wf, Bool.or_eq_true, decide_eq_true_eq] at hw
    rcases hw with rfl | rfl <;>
      simp [WasmValue.toTiny, WasmValue.val_type, ValueStack.push_dyn,
        ValueStack.pop_wasmvalue, ValueStack.stack_pop, List.getLast?_concat,
        List.dropLast_concat]
  | _ =>
    simp [WasmValue.toTiny, WasmValue.val_type, ValueStack.push_dyn,
      ValueStack.pop_wasmvalue, ValueStack.stack_pop, List.getLast?_concat,
      List.dropLast_concat]

theorem pop_wasmvalues_extend (s : ValueStack) :
    ∀ (ws : List WasmValue), (∀ w ∈ ws, w.wf = true) →
    (s.extend_from_wasmvalues ws).pop_wasmvalues
        (ws.map WasmValue.val_type).reverse = (.ok ws.reverse, s) := by
  intro ws
  induction ws using List.reverseRecOn with
  | nil => intro _; rfl
  | append_singleton l w ih =>
    intro hw
    have hwl : ∀ x ∈ l, x.wf = true := fun x hx => hw x (by simp [hx])
    have hww : w.wf = true := hw w (by simp)
    simp only [List.map_append, List.map_cons, List.map_nil,
      List.reverse_append, List.reverse_cons, List.reverse_nil,
      List.nil_append, List.singleton_append]
    simp only [ValueStack.extend_from_wasmvalues, List.foldl_append,
      List.foldl_cons, List.foldl_nil] at ih ⊢
    simp only [ValueStack.pop_wasmvalues, pop_wasmvalue_push_dyn w hww]
    rw [ih hwl]

/-- Claim C9: `extend_from_wasmvalues` followed by popping the same number of
semantic values back, in reverse order and each with its matching type
witness, reconstructs the original value sequence exactly; in particular a
null function reference and a null external reference are both stored as the
`none` reference slot and are told apart only by the witness. -/
theorem C9_extend_pop_roundtrip :
    (∀ (s : ValueStack) (ws : List WasmValue), (∀ w ∈ ws, w.wf = true) →
        (s.extend_from_wasmvalues ws).pop_wasmvalues
            (ws.map WasmValue.val_type).reverse = (.ok ws.reverse, s)) ∧
    WasmValue.toTiny (.RefNull .RefFunc) = .ValueRef none ∧
    WasmValue.toTiny (.RefNull .RefExtern) = .ValueRef none :=
  ⟨fun s ws hw => pop_wasmvalues_extend s ws hw, rfl, rfl⟩

theorem C9_extend_pop_roundtrip_witness :
    (ValueStack.extend_from_wasmvalues ⟨[], [], [], []⟩
        [.RefNull .RefFunc, .RefNull .RefExtern, .I32 5]).pop_wasmvalues
        (([.RefNull .RefFunc, .RefNull .RefExtern,
            (.I32 5 : WasmValue)].map WasmValue.val_type).reverse)
      = (.ok [.RefNull .RefFunc, .RefNull .RefExtern,
            (.I32 5 : WasmValue)].reverse, ⟨[], [], [], []⟩) :=
  C9_extend_pop_roundtrip.1 ⟨[], [], [], []⟩
    [.RefNull .RefFunc, .RefNull .RefExtern, .I32 5] (by decide)

/-- Claim C8: `pop_results` pops one value per declared result type in
reverse declared order and reverses the collected vector back, so results
pushed in declaration order come back exactly in declaration order; for
declared types `[F32, I32]` with pushed values `(1.5, 7)` it returns
`[F32 1.5, I32 7]` (float payloads as bit patterns). -/
theorem C8_pop_results (s : ValueStack) (ws : List WasmValue)
    (hw : ∀ w ∈ ws, w.wf = true) :
    (s.extend_from_wasmvalues ws).pop_results (ws.map WasmValue.val_type)
      = (.ok ws, s) := by
  simp only [ValueStack.pop_results]
  rw [pop_wasmvalues_extend s ws hw]
  simp

theorem C8_pop_results_witness :
    (ValueStack.extend_from_wasmvalues ⟨[], [], [], []⟩
        [.F32 1069547520, .I32 7]).pop_results
        ([.F32 1069547520, (.I32 7 : WasmValue)].map WasmValue.val_type)
      = (.ok [.F32 1069547520, (.I32 7 : WasmValue)], ⟨[], [], [], []⟩) :=
  C8_pop_results ⟨[], [], [], []⟩ [.F32 1069547520, .I32 7] (by decide)
